import Mathlib

/-!
Shallow embedding of the ChromeSort ball-sorting puzzle core:
the difficulty model (src/constants.ts), the rule engine and level
generator (src/components/Ball.tsx, second document: gameLogic), and the
session state machine (src/unnamed/part_000, the App component handlers).

Conventions of the embedding:
* Ball ids (uuids in the source) are modelled as natural numbers; they
  carry no game-logic meaning.
* JavaScript arrays become `List`s; in-place mutation becomes explicit
  state passing.
* `Math.random()`-driven choices are modelled by an oracle
  `rand : Nat → Nat`; the i-th random pick of an index into a pool of
  length `len` is `rand i % len`, so every index is reachable.
* React `setGameState` updaters become pure functions
  `GameState → ... → GameState`.
-/

/-- `Ball` from src/types.ts.  The uuid string id is modelled as a `Nat`. -/
structure Ball where
  id : Nat
  colorId : Nat
deriving DecidableEq, Repr

/-- `TubeData` from src/types.ts. `balls` is bottom-to-top; the last element
is the top of the stack. -/
structure TubeData where
  id : Nat
  capacity : Nat
  balls : List Ball
deriving DecidableEq, Repr

/-- `BALL_COLORS` from src/constants.ts (12 colors). -/
def BALL_COLORS : List String :=
  ["#ef4444", "#3b82f6", "#22c55e", "#eab308", "#a855f7", "#06b6d4",
   "#f97316", "#ec4899", "#64748b", "#8b5cf6", "#14b8a6", "#d946ef"]

/-- `TUBE_CAPACITY` from src/constants.ts. -/
def TUBE_CAPACITY : Nat := 4

/-- `TOTAL_LEVELS` from src/constants.ts. -/
def TOTAL_LEVELS : Nat := 30

/-- `LevelConfig` from src/types.ts. -/
structure LevelConfig where
  numColors : Nat
  numEmpty : Nat
  shuffles : Nat
  maxMoves : Nat
  timeLimit : Nat
deriving DecidableEq, Repr

/-- `getLevelConfig` from src/constants.ts.  The source's sequence of
reassignments `if (levelIndex >= k) numColors = v` is the same as the
else-if chain below read from the largest threshold down.  `Math.floor`
on the integer `shuffles` is the identity; `Math.ceil(maxMoves * 1.5)`
on a natural `maxMoves` is `(3 * maxMoves + 1) / 2` in natural division
(the multiplication by 1.5 is exact in binary floating point for the
magnitudes involved). -/
def getLevelConfig (levelIndex : Nat) : LevelConfig :=
  let numColors :=
    if 19 ≤ levelIndex then 12
    else if 16 ≤ levelIndex then 11
    else if 13 ≤ levelIndex then 10
    else if 10 ≤ levelIndex then 9
    else if 7 ≤ levelIndex then 8
    else if 5 ≤ levelIndex then 7
    else if 3 ≤ levelIndex then 6
    else if 1 ≤ levelIndex then 5
    else 4
  let numColors := min numColors BALL_COLORS.length
  let shuffles := 60 + levelIndex * 6
  let maxMoves := shuffles + 3
  let timeLimit := 30 + (3 * maxMoves + 1) / 2
  { numColors := numColors, numEmpty := 2, shuffles := shuffles,
    maxMoves := maxMoves, timeLimit := timeLimit }

/-- Helper used by `checkWinCondition` and the generator's repair scan:
`balls.every(b => b.colorId === firstColor)` with
`firstColor = balls[0].colorId`.  Vacuously true on the empty list. -/
def isAllSameColor (balls : List Ball) : Bool :=
  match balls with
  | [] => true
  | b :: _ => balls.all fun x => x.colorId == b.colorId

/-- `checkWinCondition` from gameLogic: every tube is empty, or holds
exactly `TUBE_CAPACITY` balls of one color. -/
def checkWinCondition (tubes : List TubeData) : Bool :=
  tubes.all fun tube =>
    if tube.balls.isEmpty then true
    else if tube.balls.length == TUBE_CAPACITY then isAllSameColor tube.balls
    else false

/-- `isValidMove` from gameLogic. -/
def isValidMove (sourceTube destTube : TubeData) : Bool :=
  if sourceTube.id == destTube.id then false
  else if sourceTube.balls.isEmpty then false
  else if destTube.capacity ≤ destTube.balls.length then false
  else if destTube.balls.isEmpty then true
  else
    match sourceTube.balls.getLast?, destTube.balls.getLast? with
    | some sourceBall, some destBall => sourceBall.colorId == destBall.colorId
    | _, _ => false

/-- Default tube used only to totalize list indexing (`List.getD`); every
index actually used is in bounds. -/
def defTube : TubeData := { id := 0, capacity := 0, balls := [] }

/-- A from→to pair collected by the scramble loop of `generateLevel`. -/
structure ShuffleMove where
  fm : Nat
  toIdx : Nat
deriving DecidableEq, Repr

/-- The `availableMoves` array built in each scramble iteration of
`generateLevel`: all ordered pairs with a non-empty source, a destination
below its capacity, and distinct indices, in the source's nested-loop
order. -/
def availableMoves (tubes : List TubeData) : List ShuffleMove :=
  (List.range tubes.length).flatMap fun src =>
    if (tubes.getD src defTube).balls.isEmpty then []
    else
      (List.range tubes.length).filterMap fun dest =>
        if src = dest then none
        else if (tubes.getD dest defTube).balls.length
                < (tubes.getD dest defTube).capacity then
          some { fm := src, toIdx := dest }
        else none

/-- Pop the top (last) ball of tube `fm` and push it on top of tube `to`,
mirroring `tubes[from].balls.pop()` followed by `tubes[to].balls.push(ball)`.
No-op when the source is empty or out of range. -/
def moveBall (tubes : List TubeData) (fm toIdx : Nat) : List TubeData :=
  let src := tubes.getD fm defTube
  match src.balls.getLast? with
  | none => tubes
  | some b =>
    let tubes1 := tubes.set fm { src with balls := src.balls.dropLast }
    let dst := tubes1.getD toIdx defTube
    tubes1.set toIdx { dst with balls := dst.balls ++ [b] }

/-- The `movePool` of one scramble iteration: `availableMoves` filtered by
`m.toIdx !== previousSource`, falling back to all of `availableMoves` when the
filter removes everything. -/
def codeMovePool (tubes : List TubeData) (previousSource : Int) : List ShuffleMove :=
  let avail := availableMoves tubes
  let usefulMoves := avail.filter fun m => (m.toIdx : Int) != previousSource
  if usefulMoves.isEmpty then avail else usefulMoves

/-- The scramble `for` loop of `generateLevel`.  `fuel` is the remaining
iteration count (`shuffles - i`), `i` indexes the random oracle,
`previousSource` starts at `-1`.  An empty pool breaks out of the loop. -/
def scrambleLoop (rand : Nat → Nat) : Nat → Nat → Int → List TubeData → List TubeData
  | _, 0, _, tubes => tubes
  | i, fuel + 1, previousSource, tubes =>
    let movePool := codeMovePool tubes previousSource
    if movePool.isEmpty then tubes
    else
      let m := movePool.getD (rand i % movePool.length) { fm := 0, toIdx := 0 }
      scrambleLoop rand (i + 1) fuel (m.fm : Int) (moveBall tubes m.fm m.toIdx)

/-- A tube that the post-shuffle validation of `generateLevel` treats as
pre-solved: at full `TUBE_CAPACITY` and monochrome. -/
def isSolvedTube (t : TubeData) : Bool :=
  t.balls.length == TUBE_CAPACITY && isAllSameColor t.balls

/-- `tubes.find(t => t.id !== i && t.balls.length < t.capacity)` of the
repair scan, as the index of the first matching tube. -/
def findDestIdx (excludeId : Nat) : List TubeData → Option Nat
  | [] => none
  | t :: rest =>
    if t.id ≠ excludeId ∧ t.balls.length < t.capacity then some 0
    else (findDestIdx excludeId rest).map (· + 1)

/-- One index `i` of the repair scan's inner `for` loop: if tube `i` is
pre-solved, record it and move its top ball to the first other tube with
spare capacity (if any). -/
def deSolveStep (acc : List TubeData × Bool) (i : Nat) : List TubeData × Bool :=
  let tubes := acc.1
  if isSolvedTube (tubes.getD i defTube) then
    match findDestIdx i tubes with
    | some j => (moveBall tubes i j, true)
    | none => (tubes, true)
  else (tubes, acc.2)

/-- One full pass of the repair scan over all tube indices, returning the
updated tubes and whether any pre-solved tube was found. -/
def deSolvePass (tubes : List TubeData) : List TubeData × Bool :=
  (List.range tubes.length).foldl deSolveStep (tubes, false)

/-- The `while (hasSolvedTube && attempts < 100)` loop of `generateLevel`:
repeat repair passes until one finds nothing, up to `fuel` passes. -/
def deSolveLoop : Nat → List TubeData → List TubeData
  | 0, tubes => tubes
  | fuel + 1, tubes =>
    let r := deSolvePass tubes
    if r.2 then deSolveLoop fuel r.1 else r.1

/-- Step 1 of `generateLevel`: the solved board.  The first `numColors`
tubes are full with `TUBE_CAPACITY` balls of one distinct color each, the
remaining `numEmpty` tubes are empty; ids are positional. -/
def initBoard (config : LevelConfig) : List TubeData :=
  (List.range (config.numColors + config.numEmpty)).map fun i =>
    { id := i, capacity := TUBE_CAPACITY,
      balls :=
        if i < config.numColors then
          (List.range TUBE_CAPACITY).map fun j =>
            { id := i * TUBE_CAPACITY + j, colorId := i }
        else [] }

/-- `generateLevel` from gameLogic: build the solved board, scramble it
with `shuffles` capacity-only random moves, then repair accidentally
solved tubes (at most 100 passes).  `rand` is the random oracle. -/
def generateLevel (config : LevelConfig) (rand : Nat → Nat) : List TubeData :=
  deSolveLoop 100 (scrambleLoop rand 0 config.shuffles (-1) (initBoard config))

/-- `GameState` from src/types.ts. -/
structure GameState where
  tubes : List TubeData
  initialTubes : List TubeData
  selectedTubeId : Option Nat
  moves : Nat
  maxMoves : Nat
  level : Nat
  isCompleted : Bool
  isFailed : Bool
  history : List (List TubeData)
  timeLeft : Nat
  totalTime : Nat
deriving DecidableEq, Repr

/-- `handleTubeClick` from the App component, as a pure state transition.
The unlock-frontier / confetti side effects live outside the `GameState`
and are not part of the transition on it.  The source's non-null
assertions on the two `find` calls are modelled by a no-op fallback
branch, which is unreachable in reachable states. -/
def handleTubeClick (s : GameState) (id : Nat) : GameState :=
  if s.isCompleted || s.isFailed then s
  else
    match s.selectedTubeId with
    | none =>
      match s.tubes.find? (fun t => t.id == id) with
      | none => s
      | some tube =>
        if tube.balls.isEmpty then s else { s with selectedTubeId := some id }
    | some sel =>
      if sel == id then { s with selectedTubeId := none }
      else
        match s.tubes.find? (fun t => t.id == sel),
              s.tubes.find? (fun t => t.id == id) with
        | some sourceTube, some destTube =>
          if isValidMove sourceTube destTube then
            match sourceTube.balls.getLast? with
            | none => s
            | some ballToMove =>
              let newTubes := s.tubes.map fun t =>
                if t.id == sourceTube.id then { t with balls := t.balls.dropLast }
                else if t.id == destTube.id then { t with balls := t.balls ++ [ballToMove] }
                else t
              let newMoveCount := s.moves + 1
              let isWin := checkWinCondition newTubes
              let isFail := !isWin && decide (s.maxMoves ≤ newMoveCount)
              { s with
                tubes := newTubes,
                selectedTubeId := none,
                moves := newMoveCount,
                isCompleted := isWin,
                isFailed := isFail,
                history := s.history ++ [s.tubes] }
          else
            if destTube.balls.isEmpty then { s with selectedTubeId := none }
            else { s with selectedTubeId := some id }
        | _, _ => s

/-- `handleUndo` from the App component. -/
def handleUndo (s : GameState) : GameState :=
  if s.history.isEmpty || s.isFailed || s.isCompleted then s
  else
    match s.history.getLast? with
    | none => s
    | some previousTubes =>
      { s with
        tubes := previousTubes,
        selectedTubeId := none,
        history := s.history.dropLast,
        isCompleted := false,
        isFailed := false }

/-- `handleReset` from the App component.  `initialTubes` is always present
in the modelled state (the `|| generateLevel` fallback of the source only
exists for legacy persisted saves with no `initialTubes`); the JSON deep
clone is value copying. -/
def handleReset (s : GameState) : GameState :=
  let config := getLevelConfig s.level
  { s with
    tubes := s.initialTubes,
    initialTubes := s.initialTubes,
    selectedTubeId := none,
    moves := 0,
    maxMoves := config.maxMoves,
    isCompleted := false,
    isFailed := false,
    history := [],
    timeLeft := config.timeLimit,
    totalTime := config.timeLimit }

/-- `initLevel` from the App component: a fresh session for `levelIndex`. -/
def initLevel (levelIndex : Nat) (rand : Nat → Nat) : GameState :=
  let config := getLevelConfig levelIndex
  let newTubes := generateLevel config rand
  { tubes := newTubes,
    initialTubes := newTubes,
    selectedTubeId := none,
    moves := 0,
    maxMoves := config.maxMoves,
    level := levelIndex,
    isCompleted := false,
    isFailed := false,
    history := [],
    timeLeft := config.timeLimit,
    totalTime := config.timeLimit }

/-- Number of balls of color `c` in one tube. -/
def tubeColorCount (t : TubeData) (c : Nat) : Nat :=
  t.balls.countP fun b => b.colorId == c

/-- Number of balls of color `c` on the whole board. -/
def colorCount (tubes : List TubeData) (c : Nat) : Nat :=
  (tubes.map (tubeColorCount · c)).sum

/-- Number of balls on the whole board. -/
def totalBalls (tubes : List TubeData) : Nat :=
  (tubes.map fun t => t.balls.length).sum

/-- Board invariant maintained by `generateLevel` for a configuration:
the tube count, positional ids, uniform capacity, per-tube fill bound,
total ball count and per-color ball counts of the board it builds. -/
def TubesOk (cfg : LevelConfig) (tubes : List TubeData) : Prop :=
  tubes.length = cfg.numColors + cfg.numEmpty
  ∧ (∀ i < tubes.length,
      (tubes.getD i defTube).id = i
      ∧ (tubes.getD i defTube).capacity = TUBE_CAPACITY
      ∧ (tubes.getD i defTube).balls.length ≤ TUBE_CAPACITY)
  ∧ totalBalls tubes = TUBE_CAPACITY * cfg.numColors
  ∧ (∀ c, colorCount tubes c = if c < cfg.numColors then TUBE_CAPACITY else 0)

/-- A capacity-legal scramble move, stated the way the spec words it:
source in range and non-empty, destination in range and strictly below its
capacity, source distinct from destination. -/
def capacityLegal (tubes : List TubeData) (m : ShuffleMove) : Prop :=
  m.fm < tubes.length ∧ m.toIdx < tubes.length ∧ m.fm ≠ m.toIdx
  ∧ (tubes.getD m.fm defTube).balls ≠ []
  ∧ (tubes.getD m.toIdx defTube).balls.length
      < (tubes.getD m.toIdx defTube).capacity

/-- The scramble move pool as claim C5 words it (for comparison with
`codeMovePool`): exclude only the exact reverse of the immediately
preceding move `prev` — the pair `(prev.toIdx, prev.fm)` — falling back to
all legal moves when nothing else remains. -/
def specMovePool (tubes : List TubeData) (prev : ShuffleMove) : List ShuffleMove :=
  let avail := availableMoves tubes
  let nonReverse := avail.filter fun m =>
    !(m.fm == prev.toIdx && m.toIdx == prev.fm)
  if nonReverse.isEmpty then avail else nonReverse

/-- Session states reachable from a freshly initialized level via tube
clicks (of ids of tubes present on the board, as the UI issues them),
undo and reset. -/
inductive Reachable : GameState → Prop
  | init (levelIndex : Nat) (rand : Nat → Nat) : Reachable (initLevel levelIndex rand)
  | click (s : GameState) (id : Nat) (hid : ∃ t ∈ s.tubes, t.id = id)
      (hs : Reachable s) : Reachable (handleTubeClick s id)
  | undo (s : GameState) (hs : Reachable s) : Reachable (handleUndo s)
  | reset (s : GameState) (hs : Reachable s) : Reachable (handleReset s)

/-! ### Concrete fixtures used by witness theorems -/

/-- A tube with a single color-0 ball. -/
def exSrcA : TubeData := { id := 0, capacity := 4, balls := [{ id := 0, colorId := 0 }] }

/-- An empty tube. -/
def exDstA : TubeData := { id := 1, capacity := 4, balls := [] }

/-- A two-tube board where moving from tube 0 to tube 1 is valid. -/
def exTubesA : List TubeData := [exSrcA, exDstA]

/-- A session in progress with tube 0 selected, over `exTubesA`. -/
def exStateA : GameState :=
  { tubes := exTubesA, initialTubes := exTubesA, selectedTubeId := some 0,
    moves := 0, maxMoves := 63, level := 0, isCompleted := false,
    isFailed := false, history := [], timeLeft := 125, totalTime := 125 }

/-- A tube with a single color-1 ball: its top color clashes with
`exSrcA`'s. -/
def exDstB : TubeData := { id := 1, capacity := 4, balls := [{ id := 9, colorId := 1 }] }

/-- A two-tube board where moving from tube 0 to tube 1 is invalid
(mismatched top colors). -/
def exTubesB : List TubeData := [exSrcA, exDstB]

/-- A session in progress with tube 0 selected, over `exTubesB`. -/
def exStateB : GameState :=
  { tubes := exTubesB, initialTubes := exTubesB, selectedTubeId := some 0,
    moves := 0, maxMoves := 63, level := 0, isCompleted := false,
    isFailed := false, history := [], timeLeft := 125, totalTime := 125 }

/-- A three-tube board, each tube holding one ball, used to separate
`codeMovePool` from `specMovePool`. -/
def exTubesC : List TubeData :=
  [{ id := 0, capacity := 4, balls := [{ id := 0, colorId := 0 }] },
   { id := 1, capacity := 4, balls := [{ id := 1, colorId := 1 }] },
   { id := 2, capacity := 4, balls := [{ id := 2, colorId := 2 }] }]

/-- A single full monochrome tube: a board with no capacity-legal scramble
move at all. -/
def exTubesD : List TubeData :=
  [{ id := 0, capacity := 4,
     balls := [{ id := 0, colorId := 0 }, { id := 1, colorId := 0 },
               { id := 2, colorId := 0 }, { id := 3, colorId := 0 }] }]

/-! ## Helper lemmas -/

theorem isAllSameColor_iff (balls : List Ball) :
    isAllSameColor balls = true ↔
      ∀ b1 ∈ balls, ∀ b2 ∈ balls, b1.colorId = b2.colorId := by
  cases balls with
  | nil => simp [isAllSameColor]
  | cons b rest =>
    simp only [isAllSameColor, List.all_eq_true, beq_iff_eq]
    constructor
    · intro h b1 h1 b2 h2
      rw [h b1 h1, h b2 h2]
    · intro h x hx
      exact h x hx b (List.mem_cons_self b rest)

/-! ## Claim theorems -/

/-- Claim C2: `isValidMove` is false on the same tube, an empty source or a
destination at (or above) capacity; it is true when the destination is empty
(and the earlier rejection conditions do not apply), and otherwise holds
exactly when the top balls of source and destination have equal colors. -/
theorem claim_C2_isValidMove_spec (sourceTube destTube : TubeData) :
    (isValidMove sourceTube sourceTube = false)
    ∧ (sourceTube.id = destTube.id → isValidMove sourceTube destTube = false)
    ∧ (sourceTube.balls = [] → isValidMove sourceTube destTube = false)
    ∧ (destTube.capacity ≤ destTube.balls.length →
        isValidMove sourceTube destTube = false)
    ∧ (sourceTube.id ≠ destTube.id → sourceTube.balls ≠ [] →
        destTube.balls.length < destTube.capacity → destTube.balls = [] →
        isValidMove sourceTube destTube = true)
    ∧ (∀ sb db, sourceTube.id ≠ destTube.id →
        destTube.balls.length < destTube.capacity →
        sourceTube.balls.getLast? = some sb →
        destTube.balls.getLast? = some db →
        (isValidMove sourceTube destTube = true ↔ sb.colorId = db.colorId)) := by
  refine ⟨?_, ?_, ?_, ?_, ?_, ?_⟩
  · simp [isValidMove]
  · intro h; simp [isValidMove, h]
  · intro h; unfold isValidMove; split_ifs <;> simp_all
  · intro h; unfold isValidMove; split_ifs <;> simp_all
  · intro h1 h2 h3 h4; unfold isValidMove; split_ifs <;> simp_all
  · intro sb db h1 h3 hsb hdb
    have h2 : sourceTube.balls ≠ [] := by
      intro h; rw [h] at hsb; simp at hsb
    have h4 : destTube.balls ≠ [] := by
      intro h; rw [h] at hdb; simp at hdb
    unfold isValidMove
    split_ifs <;> simp_all
    omega

/-- Witness for C2 at concrete tubes: an empty destination accepts a move,
and matching/unmatching top colors decide the non-empty case. -/
theorem claim_C2_isValidMove_spec_witness :
    ((⟨0, 4, [⟨0, 0⟩]⟩ : TubeData).id ≠ (⟨1, 4, []⟩ : TubeData).id
      ∧ (⟨0, 4, [⟨0, 0⟩]⟩ : TubeData).balls ≠ []
      ∧ (⟨1, 4, []⟩ : TubeData).balls.length < (⟨1, 4, []⟩ : TubeData).capacity
      ∧ (⟨1, 4, []⟩ : TubeData).balls = [])
    ∧ isValidMove ⟨0, 4, [⟨0, 0⟩]⟩ ⟨1, 4, []⟩ = true :=
  ⟨by decide,
   (claim_C2_isValidMove_spec ⟨0, 4, [⟨0, 0⟩]⟩ ⟨1, 4, []⟩).2.2.2.2.1
     (by decide) (by decide) (by decide) (by decide)⟩

/-- Counterexample to claim C3 as stated: a monochrome tube holding exactly
its own capacity (3) of balls is full-to-capacity and monochrome, yet
`checkWinCondition` rejects it because the code compares against the global
`TUBE_CAPACITY` (4), not the tube's own `capacity` field. -/
theorem claim_C3_counterexample :
    checkWinCondition [⟨0, 3, [⟨0, 0⟩, ⟨1, 0⟩, ⟨2, 0⟩]⟩] = false
    ∧ (∀ t ∈ [(⟨0, 3, [⟨0, 0⟩, ⟨1, 0⟩, ⟨2, 0⟩]⟩ : TubeData)],
        t.balls.length = t.capacity
        ∧ ∀ b1 ∈ t.balls, ∀ b2 ∈ t.balls, b1.colorId = b2.colorId) := by
  decide

/-- Claim C3 (amended): `checkWinCondition board` is true iff every tube is
either empty or holds exactly `TUBE_CAPACITY` (4) balls — the global
constant, not the tube's own `capacity` field — all of one color. -/
theorem claim_C3_checkWinCondition_iff (tubes : List TubeData) :
    checkWinCondition tubes = true ↔
      ∀ t ∈ tubes, t.balls = [] ∨
        (t.balls.length = TUBE_CAPACITY
          ∧ ∀ b1 ∈ t.balls, ∀ b2 ∈ t.balls, b1.colorId = b2.colorId) := by
  simp only [checkWinCondition, List.all_eq_true]
  refine forall_congr' fun t => forall_congr' fun ht => ?_
  split_ifs with h1 h2
  · simp only [List.isEmpty_iff] at h1
    simp [h1]
  · simp only [beq_iff_eq] at h2
    simp only [List.isEmpty_iff] at h1
    simp [h1, h2, isAllSameColor_iff]
  · simp only [List.isEmpty_iff] at h1
    simp only [beq_iff_eq] at h2
    simp [h1, h2]

/-- Claim C8: reset restores the initial board by value, leaves the stored
initial board unchanged, clears selection and history, zeroes moves, clears
both terminal flags, and restores the clock to the level's full time limit. -/
theorem claim_C8_handleReset_spec (s : GameState) :
    (handleReset s).tubes = s.initialTubes
    ∧ (handleReset s).initialTubes = s.initialTubes
    ∧ (handleReset s).selectedTubeId = none
    ∧ (handleReset s).moves = 0
    ∧ (handleReset s).history = []
    ∧ (handleReset s).isCompleted = false
    ∧ (handleReset s).isFailed = false
    ∧ (handleReset s).maxMoves = (getLevelConfig s.level).maxMoves
    ∧ (handleReset s).timeLeft = (handleReset s).totalTime
    ∧ (handleReset s).totalTime = (getLevelConfig s.level).timeLimit
    ∧ (handleReset s).level = s.level := by
  simp [handleReset]

theorem numColors_eq (i : Nat) : (getLevelConfig i).numColors =
    if 19 ≤ i then 12 else if 16 ≤ i then 11 else if 13 ≤ i then 10
    else if 10 ≤ i then 9 else if 7 ≤ i then 8 else if 5 ≤ i then 7
    else if 3 ≤ i then 6 else if 1 ≤ i then 5 else 4 := by
  simp only [getLevelConfig]
  split_ifs <;> rfl

set_option maxHeartbeats 1000000 in
theorem numColors_mono_succ (i : Nat) :
    (getLevelConfig i).numColors ≤ (getLevelConfig (i + 1)).numColors := by
  rw [numColors_eq, numColors_eq]
  split_ifs <;> omega

theorem numColors_bounds (i : Nat) :
    4 ≤ (getLevelConfig i).numColors
    ∧ (getLevelConfig i).numColors ≤ BALL_COLORS.length := by
  rw [numColors_eq]
  have h12 : BALL_COLORS.length = 12 := by rfl
  rw [h12]
  split_ifs <;> omega

theorem numColors_mono (i j : Nat) (h : i ≤ j) :
    (getLevelConfig i).numColors ≤ (getLevelConfig j).numColors := by
  induction j with
  | zero => simp_all
  | succ j ih =>
    rcases Nat.lt_or_ge i (j + 1) with h' | h'
    · exact le_trans (ih (Nat.lt_succ_iff.mp h')) (numColors_mono_succ j)
    · have : i = j + 1 := le_antisymm h h'
      subst this; exact le_refl _

/-- Claim C9: `getLevelConfig` is a pure function of the level index with
`numEmpty = 2`, `shuffles = 60 + 6·i`, `maxMoves = shuffles + 3`, and
`timeLimit = 30 + ceil(maxMoves · 1.5)` (the two division-free inequalities
pin `timeLimit - 30` as exactly the ceiling of `3·maxMoves / 2`);
`numColors` is non-decreasing in the index, starts at 4 and never exceeds
the 12-color palette; level 0 yields (4, 2, 60, 63, 125). -/
theorem claim_C9_getLevelConfig_spec (i : Nat) :
    (getLevelConfig i).numEmpty = 2
    ∧ (getLevelConfig i).shuffles = 60 + 6 * i
    ∧ (getLevelConfig i).maxMoves = (getLevelConfig i).shuffles + 3
    ∧ 30 < (getLevelConfig i).timeLimit
    ∧ 3 * (getLevelConfig i).maxMoves ≤ 2 * ((getLevelConfig i).timeLimit - 30)
    ∧ 2 * ((getLevelConfig i).timeLimit - 30) ≤ 3 * (getLevelConfig i).maxMoves + 1
    ∧ 4 ≤ (getLevelConfig i).numColors
    ∧ (getLevelConfig i).numColors ≤ BALL_COLORS.length
    ∧ (∀ j, i ≤ j → (getLevelConfig i).numColors ≤ (getLevelConfig j).numColors)
    ∧ getLevelConfig 0 =
        { numColors := 4, numEmpty := 2, shuffles := 60,
          maxMoves := 63, timeLimit := 125 } := by
  refine ⟨rfl, ?_, rfl, ?_, ?_, ?_, ?_, ?_, fun j h => numColors_mono i j h, by decide⟩
  · simp only [getLevelConfig]; omega
  · simp only [getLevelConfig]; omega
  · simp only [getLevelConfig]; omega
  · simp only [getLevelConfig]; omega
  · exact (numColors_bounds i).1
  · exact (numColors_bounds i).2

/-- Witness for C9 at concrete level indices 0 and 25. -/
theorem claim_C9_getLevelConfig_spec_witness :
    (0 : Nat) ≤ 25
    ∧ (getLevelConfig 0).numColors ≤ (getLevelConfig 25).numColors :=
  ⟨Nat.zero_le 25,
   (claim_C9_getLevelConfig_spec 0).2.2.2.2.2.2.2.2.1 25 (Nat.zero_le 25)⟩

theorem handleTubeClick_valid_eq (s : GameState) (id sel : Nat) (src dst : TubeData) (b : Ball)
    (hc : s.isCompleted = false) (hf : s.isFailed = false)
    (hsel : s.selectedTubeId = some sel) (hne : sel ≠ id)
    (hsrc : s.tubes.find? (fun t => t.id == sel) = some src)
    (hdst : s.tubes.find? (fun t => t.id == id) = some dst)
    (hvalid : isValidMove src dst = true)
    (hb : src.balls.getLast? = some b) :
    handleTubeClick s id =
      { s with
        tubes := s.tubes.map (fun t =>
          if t.id == src.id then { t with balls := t.balls.dropLast }
          else if t.id == dst.id then { t with balls := t.balls ++ [b] }
          else t),
        selectedTubeId := none,
        moves := s.moves + 1,
        isCompleted := checkWinCondition (s.tubes.map (fun t =>
          if t.id == src.id then { t with balls := t.balls.dropLast }
          else if t.id == dst.id then { t with balls := t.balls ++ [b] }
          else t)),
        isFailed := (!checkWinCondition (s.tubes.map (fun t =>
          if t.id == src.id then { t with balls := t.balls.dropLast }
          else if t.id == dst.id then { t with balls := t.balls ++ [b] }
          else t)) && decide (s.maxMoves ≤ s.moves + 1)),
        history := s.history ++ [s.tubes] } := by
  have hne' : (sel == id) = false := by simp [hne]
  unfold handleTubeClick
  rw [hc, hf]
  simp only [Bool.or_self, Bool.false_eq_true, if_false, hsel, hne', hsrc, hdst, hvalid,
    if_true, hb]

/-- Claim C1: while Playing with a different tube selected, a click on a
tube for which `isValidMove` holds pops the top ball of the source onto
the destination, appends the pre-move board to history, increments
`moves` by exactly one, clears the selection, completes iff the post-move
board wins, fails iff it does not win and the new move count reaches
`maxMoves`, never sets both flags, and stays Playing otherwise. -/
theorem claim_C1_click_valid_move_spec (s : GameState) (id sel : Nat)
    (src dst : TubeData) (b : Ball)
    (hc : s.isCompleted = false) (hf : s.isFailed = false)
    (hsel : s.selectedTubeId = some sel) (hne : sel ≠ id)
    (hsrc : s.tubes.find? (fun t => t.id == sel) = some src)
    (hdst : s.tubes.find? (fun t => t.id == id) = some dst)
    (hvalid : isValidMove src dst = true)
    (hb : src.balls.getLast? = some b) :
    (handleTubeClick s id).tubes = s.tubes.map (fun t =>
        if t.id == src.id then { t with balls := t.balls.dropLast }
        else if t.id == dst.id then { t with balls := t.balls ++ [b] }
        else t)
    ∧ (handleTubeClick s id).history = s.history ++ [s.tubes]
    ∧ (handleTubeClick s id).moves = s.moves + 1
    ∧ (handleTubeClick s id).selectedTubeId = none
    ∧ (handleTubeClick s id).isCompleted = checkWinCondition (handleTubeClick s id).tubes
    ∧ (handleTubeClick s id).isFailed
        = (!checkWinCondition (handleTubeClick s id).tubes
            && decide (s.maxMoves ≤ s.moves + 1))
    ∧ ¬((handleTubeClick s id).isCompleted = true ∧ (handleTubeClick s id).isFailed = true)
    ∧ (checkWinCondition (handleTubeClick s id).tubes = false →
        s.maxMoves ≤ s.moves + 1 → (handleTubeClick s id).isFailed = true)
    ∧ (checkWinCondition (handleTubeClick s id).tubes = false →
        s.moves + 1 < s.maxMoves →
        (handleTubeClick s id).isCompleted = false
        ∧ (handleTubeClick s id).isFailed = false)
    ∧ (handleTubeClick s id).timeLeft = s.timeLeft
    ∧ (handleTubeClick s id).maxMoves = s.maxMoves := by
  have key := handleTubeClick_valid_eq s id sel src dst b hc hf hsel hne hsrc hdst hvalid hb
  rw [key]
  dsimp only
  refine ⟨rfl, rfl, rfl, rfl, rfl, rfl, ?_, ?_, ?_, rfl, rfl⟩
  · cases h : checkWinCondition (s.tubes.map (fun t =>
      if t.id == src.id then { t with balls := t.balls.dropLast }
      else if t.id == dst.id then { t with balls := t.balls ++ [b] }
      else t)) <;> simp [h]
  · intro h1 h2
    rw [h1]
    simp only [Bool.not_false, Bool.true_and]
    exact decide_eq_true h2
  · intro h1 h2
    refine ⟨h1, ?_⟩
    rw [h1]
    simp only [Bool.not_false, Bool.true_and]
    exact decide_eq_false (by omega)

/-- Witness for C1: the concrete valid move of `exStateA` (tube 0 selected,
tube 1 clicked). -/
theorem claim_C1_click_valid_move_spec_witness :
    (exStateA.isCompleted = false ∧ exStateA.isFailed = false
      ∧ exStateA.selectedTubeId = some 0 ∧ (0 : Nat) ≠ 1
      ∧ exStateA.tubes.find? (fun t => t.id == 0) = some exSrcA
      ∧ exStateA.tubes.find? (fun t => t.id == 1) = some exDstA
      ∧ isValidMove exSrcA exDstA = true
      ∧ exSrcA.balls.getLast? = some { id := 0, colorId := 0 })
    ∧ ((handleTubeClick exStateA 1).tubes = exStateA.tubes.map (fun t =>
          if t.id == exSrcA.id then { t with balls := t.balls.dropLast }
          else if t.id == exDstA.id then { t with balls := t.balls ++ [{ id := 0, colorId := 0 }] }
          else t)
      ∧ (handleTubeClick exStateA 1).history = exStateA.history ++ [exStateA.tubes]
      ∧ (handleTubeClick exStateA 1).moves = exStateA.moves + 1
      ∧ (handleTubeClick exStateA 1).selectedTubeId = none
      ∧ (handleTubeClick exStateA 1).isCompleted
          = checkWinCondition (handleTubeClick exStateA 1).tubes
      ∧ (handleTubeClick exStateA 1).isFailed
          = (!checkWinCondition (handleTubeClick exStateA 1).tubes
              && decide (exStateA.maxMoves ≤ exStateA.moves + 1))
      ∧ ¬((handleTubeClick exStateA 1).isCompleted = true
          ∧ (handleTubeClick exStateA 1).isFailed = true)
      ∧ (checkWinCondition (handleTubeClick exStateA 1).tubes = false →
          exStateA.maxMoves ≤ exStateA.moves + 1 →
          (handleTubeClick exStateA 1).isFailed = true)
      ∧ (checkWinCondition (handleTubeClick exStateA 1).tubes = false →
          exStateA.moves + 1 < exStateA.maxMoves →
          (handleTubeClick exStateA 1).isCompleted = false
          ∧ (handleTubeClick exStateA 1).isFailed = false)
      ∧ (handleTubeClick exStateA 1).timeLeft = exStateA.timeLeft
      ∧ (handleTubeClick exStateA 1).maxMoves = exStateA.maxMoves) :=
  ⟨⟨rfl, rfl, rfl, by decide, by decide, by decide, by decide, rfl⟩,
   claim_C1_click_valid_move_spec exStateA 1 0 exSrcA exDstA { id := 0, colorId := 0 }
     rfl rfl rfl (by decide) (by decide) (by decide) (by decide) rfl⟩

/-- Claim C6: undo never changes `moves`; it is a no-op on empty history or
in a terminal state; while Playing with non-empty history it restores the
most recent snapshot and clears the selection; and a valid move that keeps
the session Playing followed by undo restores the pre-move board by value
while `moves` keeps its incremented value. -/
theorem claim_C6_handleUndo_spec (s : GameState) :
    ((handleUndo s).moves = s.moves)
    ∧ (s.history = [] → handleUndo s = s)
    ∧ (s.isCompleted = true → handleUndo s = s)
    ∧ (s.isFailed = true → handleUndo s = s)
    ∧ (∀ hist prevB, s.isCompleted = false → s.isFailed = false →
        s.history = hist ++ [prevB] →
        handleUndo s =
          { s with tubes := prevB, selectedTubeId := none, history := hist })
    ∧ (∀ id sel src dst b, s.isCompleted = false → s.isFailed = false →
        s.selectedTubeId = some sel → sel ≠ id →
        s.tubes.find? (fun t => t.id == sel) = some src →
        s.tubes.find? (fun t => t.id == id) = some dst →
        isValidMove src dst = true → src.balls.getLast? = some b →
        (handleTubeClick s id).isCompleted = false →
        (handleTubeClick s id).isFailed = false →
        (handleUndo (handleTubeClick s id)).tubes = s.tubes
        ∧ (handleUndo (handleTubeClick s id)).moves = s.moves + 1
        ∧ (handleUndo (handleTubeClick s id)).selectedTubeId = none) := by
  refine ⟨?_, ?_, ?_, ?_, ?_, ?_⟩
  · unfold handleUndo
    split_ifs with h
    · rfl
    · cases hg : s.history.getLast? <;> rfl
  · intro h; unfold handleUndo; simp [h]
  · intro h; unfold handleUndo; simp [h]
  · intro h; unfold handleUndo; simp [h]
  · intro hist prevB hc hf hh
    unfold handleUndo
    rw [hh]
    simp only [List.isEmpty_eq_true, List.append_eq_nil, List.cons_ne_self, and_false,
      List.getLast?_concat, List.dropLast_concat, hc, hf]
    simp [hc, hf]
  · intro id sel src dst b hc hf hsel hne hsrc hdst hvalid hb hc' hf'
    have key := handleTubeClick_valid_eq s id sel src dst b hc hf hsel hne hsrc hdst hvalid hb
    rw [key] at hc' hf' ⊢
    dsimp only at hc' hf' ⊢
    unfold handleUndo
    dsimp only
    rw [hf', hc']
    simp [List.getLast?_concat, List.dropLast_concat]

/-- Witness for C6: move then undo on the concrete session `exStateA`. -/
theorem claim_C6_handleUndo_spec_witness :
    (exStateA.isCompleted = false ∧ exStateA.isFailed = false
      ∧ exStateA.selectedTubeId = some 0 ∧ (0 : Nat) ≠ 1
      ∧ exStateA.tubes.find? (fun t => t.id == 0) = some exSrcA
      ∧ exStateA.tubes.find? (fun t => t.id == 1) = some exDstA
      ∧ isValidMove exSrcA exDstA = true
      ∧ exSrcA.balls.getLast? = some { id := 0, colorId := 0 }
      ∧ (handleTubeClick exStateA 1).isCompleted = false
      ∧ (handleTubeClick exStateA 1).isFailed = false)
    ∧ ((handleUndo (handleTubeClick exStateA 1)).tubes = exStateA.tubes
      ∧ (handleUndo (handleTubeClick exStateA 1)).moves = exStateA.moves + 1
      ∧ (handleUndo (handleTubeClick exStateA 1)).selectedTubeId = none) :=
  ⟨⟨rfl, rfl, rfl, by decide, by decide, by decide, by decide, rfl,
    by decide, by decide⟩,
   (claim_C6_handleUndo_spec exStateA).2.2.2.2.2 1 0 exSrcA exDstA
     { id := 0, colorId := 0 } rfl rfl rfl (by decide) (by decide) (by decide)
     (by decide) rfl (by decide) (by decide)⟩

/-- Claim C7: while Playing with a tube selected, clicking a different
tube for which `isValidMove` fails leaves board, history, moves, clock and
both terminal flags unchanged; the selection switches to the clicked tube
when it is non-empty and clears when it is empty. -/
theorem claim_C7_click_invalid_move_spec (s : GameState) (id sel : Nat)
    (src dst : TubeData)
    (hc : s.isCompleted = false) (hf : s.isFailed = false)
    (hsel : s.selectedTubeId = some sel) (hne : sel ≠ id)
    (hsrc : s.tubes.find? (fun t => t.id == sel) = some src)
    (hdst : s.tubes.find? (fun t => t.id == id) = some dst)
    (hinvalid : isValidMove src dst = false) :
    (handleTubeClick s id).tubes = s.tubes
    ∧ (handleTubeClick s id).history = s.history
    ∧ (handleTubeClick s id).moves = s.moves
    ∧ (handleTubeClick s id).timeLeft = s.timeLeft
    ∧ (handleTubeClick s id).isCompleted = false
    ∧ (handleTubeClick s id).isFailed = false
    ∧ (dst.balls ≠ [] → (handleTubeClick s id).selectedTubeId = some id)
    ∧ (dst.balls = [] → (handleTubeClick s id).selectedTubeId = none) := by
  have hne' : (sel == id) = false := by simp [hne]
  have key : handleTubeClick s id =
      if dst.balls.isEmpty then { s with selectedTubeId := none }
      else { s with selectedTubeId := some id } := by
    unfold handleTubeClick
    rw [hc, hf]
    simp only [Bool.or_self, Bool.false_eq_true, if_false, hsel, hne', hsrc, hdst, hinvalid]
  rw [key]
  by_cases h : dst.balls = []
  · simp [h, hc, hf]
  · simp [h, hc, hf]

/-- Witness for C7: the concrete invalid move of `exStateB` (top colors 0
vs 1), which switches the selection to the clicked non-empty tube. -/
theorem claim_C7_click_invalid_move_spec_witness :
    (exStateB.isCompleted = false ∧ exStateB.isFailed = false
      ∧ exStateB.selectedTubeId = some 0 ∧ (0 : Nat) ≠ 1
      ∧ exStateB.tubes.find? (fun t => t.id == 0) = some exSrcA
      ∧ exStateB.tubes.find? (fun t => t.id == 1) = some exDstB
      ∧ isValidMove exSrcA exDstB = false)
    ∧ ((handleTubeClick exStateB 1).tubes = exStateB.tubes
      ∧ (handleTubeClick exStateB 1).history = exStateB.history
      ∧ (handleTubeClick exStateB 1).moves = exStateB.moves
      ∧ (handleTubeClick exStateB 1).timeLeft = exStateB.timeLeft
      ∧ (handleTubeClick exStateB 1).isCompleted = false
      ∧ (handleTubeClick exStateB 1).isFailed = false
      ∧ (exDstB.balls ≠ [] → (handleTubeClick exStateB 1).selectedTubeId = some 1)
      ∧ (exDstB.balls = [] → (handleTubeClick exStateB 1).selectedTubeId = none)) :=
  ⟨⟨rfl, rfl, rfl, by decide, by decide, by decide, by decide⟩,
   claim_C7_click_invalid_move_spec exStateB 1 0 exSrcA exDstB
     rfl rfl rfl (by decide) (by decide) (by decide) (by decide)⟩

theorem mem_availableMoves (tubes : List TubeData) (m : ShuffleMove) :
    m ∈ availableMoves tubes ↔ capacityLegal tubes m := by
  unfold availableMoves capacityLegal
  simp only [List.mem_flatMap, List.mem_range]
  constructor
  · rintro ⟨src, hsrc, hm⟩
    by_cases he : (tubes.getD src defTube).balls.isEmpty = true
    · rw [if_pos he] at hm
      simp at hm
    · rw [if_neg he] at hm
      simp only [List.mem_filterMap, List.mem_range] at hm
      obtain ⟨dest, hdest, hf⟩ := hm
      by_cases hsd : src = dest
      · rw [if_pos hsd] at hf
        simp at hf
      · rw [if_neg hsd] at hf
        by_cases hcap : (tubes.getD dest defTube).balls.length
            < (tubes.getD dest defTube).capacity
        · rw [if_pos hcap] at hf
          rw [Option.some_inj] at hf
          subst hf
          refine ⟨hsrc, hdest, hsd, ?_, hcap⟩
          intro hnil
          rw [hnil] at he
          simp at he
        · rw [if_neg hcap] at hf
          simp at hf
  · rintro ⟨hfm, hto, hne, hsrc, hcap⟩
    refine ⟨m.fm, hfm, ?_⟩
    have he : ¬((tubes.getD m.fm defTube).balls.isEmpty = true) := by
      rw [List.isEmpty_iff]
      exact hsrc
    rw [if_neg he]
    simp only [List.mem_filterMap, List.mem_range]
    refine ⟨m.toIdx, hto, ?_⟩
    rw [if_neg hne, if_pos hcap]

theorem mem_codeMovePool (tubes : List TubeData) (previousSource : Int) (m : ShuffleMove) :
    m ∈ codeMovePool tubes previousSource ↔
      (m ∈ availableMoves tubes
        ∧ ((m.toIdx : Int) ≠ previousSource
            ∨ ∀ m' ∈ availableMoves tubes, (m'.toIdx : Int) = previousSource)) := by
  unfold codeMovePool
  by_cases hemp : ((availableMoves tubes).filter
      fun m => (m.toIdx : Int) != previousSource).isEmpty = true
  · rw [if_pos hemp]
    rw [List.isEmpty_iff, List.filter_eq_nil_iff] at hemp
    constructor
    · intro hm
      refine ⟨hm, Or.inr fun m' hm' => ?_⟩
      have := hemp m' hm'
      simpa using this
    · exact fun h => h.1
  · rw [if_neg hemp]
    rw [List.isEmpty_iff] at hemp
    constructor
    · intro hm
      rw [List.mem_filter] at hm
      refine ⟨hm.1, Or.inl ?_⟩
      simpa using hm.2
    · rintro ⟨hm, h | h⟩
      · rw [List.mem_filter]
        exact ⟨hm, by simpa using h⟩
      · exfalso
        apply hemp
        rw [List.filter_eq_nil_iff]
        intro m' hm'
        simp [h m' hm']

/-- Counterexample to claim C5 as stated: on the three-tube board
`exTubesC` after a previous move 0→1 (`previousSource = 0`), the move 2→0
is capacity-legal and is not the exact reverse 1→0, yet the code's pool
excludes it — the filter `m.to !== previousSource` drops every move into
tube 0, not only the exact reverse. -/
theorem claim_C5_counterexample :
    ((⟨2, 0⟩ : ShuffleMove) ∈ availableMoves exTubesC)
    ∧ (¬((⟨2, 0⟩ : ShuffleMove) = (⟨1, 0⟩ : ShuffleMove)))
    ∧ ((⟨2, 0⟩ : ShuffleMove) ∈ specMovePool exTubesC ⟨0, 1⟩)
    ∧ (¬((⟨2, 0⟩ : ShuffleMove) ∈ codeMovePool exTubesC 0))
    ∧ codeMovePool exTubesC 0 ≠ specMovePool exTubesC ⟨0, 1⟩ := by
  decide

/-- Claim C5 (amended): in each scramble iteration the pool of candidate
moves is exactly the capacity-legal ordered pairs (source non-empty,
destination strictly below its capacity, source ≠ destination) minus all
moves whose destination is the source tube of the immediately preceding
move — not only its exact reverse — with a fallback to every legal move
when that filter empties the pool; the iteration picks the
random-oracle-indexed element of the pool, and scrambling stops early
when no legal move exists. -/
theorem claim_C5_scramble_pool_spec (tubes : List TubeData) (previousSource : Int) :
    (∀ m, m ∈ availableMoves tubes ↔ capacityLegal tubes m)
    ∧ (∀ m, m ∈ codeMovePool tubes previousSource ↔
        (m ∈ availableMoves tubes
          ∧ ((m.toIdx : Int) ≠ previousSource
              ∨ ∀ m' ∈ availableMoves tubes, (m'.toIdx : Int) = previousSource)))
    ∧ (∀ rand i fuel, availableMoves tubes = [] →
        scrambleLoop rand i (fuel + 1) previousSource tubes = tubes)
    ∧ (∀ rand i fuel, codeMovePool tubes previousSource ≠ [] →
        scrambleLoop rand i (fuel + 1) previousSource tubes =
          scrambleLoop rand (i + 1) fuel
            (((codeMovePool tubes previousSource).getD
                (rand i % (codeMovePool tubes previousSource).length)
                { fm := 0, toIdx := 0 }).fm : Int)
            (moveBall tubes
              ((codeMovePool tubes previousSource).getD
                (rand i % (codeMovePool tubes previousSource).length)
                { fm := 0, toIdx := 0 }).fm
              ((codeMovePool tubes previousSource).getD
                (rand i % (codeMovePool tubes previousSource).length)
                { fm := 0, toIdx := 0 }).toIdx)) := by
  refine ⟨mem_availableMoves tubes, mem_codeMovePool tubes previousSource, ?_, ?_⟩
  · intro rand i fuel hav
    unfold scrambleLoop
    have hpool : codeMovePool tubes previousSource = [] := by
      unfold codeMovePool
      rw [hav]
      simp
    rw [hpool]
    simp
  · intro rand i fuel hpool
    conv_lhs => unfold scrambleLoop
    have : (codeMovePool tubes previousSource).isEmpty = false := by
      rw [Bool.eq_false_iff]
      intro h
      exact hpool (List.isEmpty_iff.mp h)
    simp only [this, Bool.false_eq_true, if_false]

/-- Witness for C5: on the moveless board `exTubesD` scrambling stops
early. -/
theorem claim_C5_scramble_pool_spec_witness :
    (availableMoves exTubesD = [])
    ∧ scrambleLoop (fun _ => 0) 0 (5 + 1) (-1) exTubesD = exTubesD :=
  ⟨by decide,
   (claim_C5_scramble_pool_spec exTubesD (-1)).2.2.1 (fun _ => 0) 0 5 (by decide)⟩

theorem selection_invariant (s : GameState) (h : Reachable s) :
    s.selectedTubeId = none ∨ ∃ t ∈ s.tubes, some t.id = s.selectedTubeId := by
  induction h with
  | init levelIndex rand => left; rfl
  | undo s hs ih =>
    unfold handleUndo
    split_ifs with h1
    · exact ih
    · cases hg : s.history.getLast? with
      | none => exact ih
      | some prev => left; rfl
  | reset s hs ih => left; rfl
  | click s id hid hs ih =>
    unfold handleTubeClick
    by_cases h1 : (s.isCompleted || s.isFailed) = true
    · rw [if_pos h1]; exact ih
    · rw [if_neg h1]
      cases hsel : s.selectedTubeId with
      | none =>
        dsimp only
        cases hfind : s.tubes.find? (fun t => t.id == id) with
        | none => exact ih
        | some tube =>
          dsimp only
          by_cases hemp : tube.balls.isEmpty = true
          · rw [if_pos hemp]; exact ih
          · rw [if_neg hemp]
            right
            refine ⟨tube, List.mem_of_find?_eq_some hfind, ?_⟩
            have := List.find?_some hfind
            simp only [beq_iff_eq] at this
            simp [this]
      | some sel =>
        dsimp only
        by_cases heq : (sel == id) = true
        · rw [if_pos heq]; left; rfl
        · rw [if_neg heq]
          cases hsrc : s.tubes.find? (fun t => t.id == sel) with
          | none =>
            cases hdst : s.tubes.find? (fun t => t.id == id) with
            | none => exact ih
            | some dst => exact ih
          | some src =>
            cases hdst : s.tubes.find? (fun t => t.id == id) with
            | none => exact ih
            | some dst =>
              dsimp only
              by_cases hv : isValidMove src dst = true
              · rw [if_pos hv]
                cases hb : src.balls.getLast? with
                | none => exact ih
                | some b => left; rfl
              · rw [if_neg hv]
                by_cases hemp : dst.balls.isEmpty = true
                · rw [if_pos hemp]; left; rfl
                · rw [if_neg hemp]
                  right
                  refine ⟨dst, List.mem_of_find?_eq_some hdst, ?_⟩
                  have := List.find?_some hdst
                  simp only [beq_iff_eq] at this
                  simp [this]

/-- Claim C10: in every session state reachable from a freshly initialized
level via tube clicks (of on-board tube ids), undo and reset, the
selection is either empty or names a tube present on the current board,
so the non-null-asserted source and destination `find` lookups of the
click handler always succeed. -/
theorem claim_C10_selection_safety (s : GameState) (h : Reachable s) :
    (s.selectedTubeId = none ∨ ∃ t ∈ s.tubes, some t.id = s.selectedTubeId)
    ∧ (∀ sel, s.selectedTubeId = some sel →
        (s.tubes.find? (fun t => t.id == sel)).isSome = true)
    ∧ (∀ id, (∃ t ∈ s.tubes, t.id = id) →
        (s.tubes.find? (fun t => t.id == id)).isSome = true) := by
  have inv := selection_invariant s h
  refine ⟨inv, ?_, ?_⟩
  · intro sel hsel
    rcases inv with h0 | ⟨t, ht, hts⟩
    · rw [h0] at hsel; cases hsel
    · rw [hsel] at hts
      rw [List.find?_isSome]
      refine ⟨t, ht, ?_⟩
      simp [Option.some_inj.mp hts]
  · rintro id ⟨t, ht, hid⟩
    rw [List.find?_isSome]
    exact ⟨t, ht, by simp [hid]⟩

/-- Witness for C10: the freshly initialized level-0 session is reachable
and satisfies the selection safety property. -/
theorem claim_C10_selection_safety_witness :
    Reachable (initLevel 0 (fun _ => 0))
    ∧ (((initLevel 0 (fun _ => 0)).selectedTubeId = none
        ∨ ∃ t ∈ (initLevel 0 (fun _ => 0)).tubes,
            some t.id = (initLevel 0 (fun _ => 0)).selectedTubeId)
      ∧ (∀ sel, (initLevel 0 (fun _ => 0)).selectedTubeId = some sel →
          ((initLevel 0 (fun _ => 0)).tubes.find? (fun t => t.id == sel)).isSome = true)
      ∧ (∀ id, (∃ t ∈ (initLevel 0 (fun _ => 0)).tubes, t.id = id) →
          ((initLevel 0 (fun _ => 0)).tubes.find? (fun t => t.id == id)).isSome = true)) :=
  ⟨Reachable.init 0 (fun _ => 0),
   claim_C10_selection_safety (initLevel 0 (fun _ => 0)) (Reachable.init 0 (fun _ => 0))⟩

theorem getD_set_self (l : List TubeData) (i : Nat) (v : TubeData) (h : i < l.length) :
    (l.set i v).getD i defTube = v := by
  rw [List.getD_eq_getElem?_getD, List.getElem?_set_self]
  · simp
  · exact h

theorem getD_set_ne (l : List TubeData) (i j : Nat) (v : TubeData) (h : i ≠ j) :
    (l.set i v).getD j defTube = l.getD j defTube := by
  rw [List.getD_eq_getElem?_getD, List.getElem?_set_ne h, ← List.getD_eq_getElem?_getD]

theorem sum_map_set (f : TubeData → Nat) (l : List TubeData) (i : Nat) (v : TubeData)
    (h : i < l.length) :
    ((l.set i v).map f).sum + f (l.getD i defTube) = (l.map f).sum + f v := by
  induction l generalizing i with
  | nil => simp at h
  | cons a l ih =>
    cases i with
    | zero => simp [List.set, List.getD]; omega
    | succ i =>
      simp only [List.set, List.map_cons, List.sum_cons, List.getD_cons_succ]
      have := ih i (by simpa using h)
      omega

theorem moveBall_eq_of_empty (tubes : List TubeData) (fm toIdx : Nat)
    (hb : (tubes.getD fm defTube).balls.getLast? = none) :
    moveBall tubes fm toIdx = tubes := by
  unfold moveBall
  dsimp only
  rw [hb]

theorem moveBall_eq (tubes : List TubeData) (fm toIdx : Nat) (b : Ball) (hne : fm ≠ toIdx)
    (hb : (tubes.getD fm defTube).balls.getLast? = some b) :
    moveBall tubes fm toIdx =
      (tubes.set fm { tubes.getD fm defTube with
          balls := (tubes.getD fm defTube).balls.dropLast }).set toIdx
        { tubes.getD toIdx defTube with
          balls := (tubes.getD toIdx defTube).balls ++ [b] } := by
  unfold moveBall
  dsimp only
  rw [hb]
  dsimp only
  rw [getD_set_ne _ _ _ _ hne]

theorem moveBall_length (tubes : List TubeData) (fm toIdx : Nat) :
    (moveBall tubes fm toIdx).length = tubes.length := by
  cases hb : (tubes.getD fm defTube).balls.getLast? with
  | none => rw [moveBall_eq_of_empty tubes fm toIdx hb]
  | some b =>
    by_cases hne : fm = toIdx
    · subst hne
      unfold moveBall
      dsimp only
      rw [hb]
      dsimp only
      simp
    · rw [moveBall_eq tubes fm toIdx b hne hb]
      simp

theorem balls_eq_dropLast_append (l : List Ball) (b : Ball) (hb : l.getLast? = some b) :
    l = l.dropLast ++ [b] := by
  have hne : l ≠ [] := by intro h; rw [h] at hb; cases hb
  have := List.getLast?_eq_getLast l hne
  rw [this, Option.some_inj] at hb
  rw [← hb, List.dropLast_append_getLast hne]

theorem moveBall_counts (g : List Ball → Nat) (hg : ∀ xs ys, g (xs ++ ys) = g xs + g ys)
    (tubes : List TubeData) (fm toIdx : Nat) (hne : fm ≠ toIdx)
    (hfm : fm < tubes.length) (hto : toIdx < tubes.length) :
    ((moveBall tubes fm toIdx).map fun t => g t.balls).sum
      = (tubes.map fun t => g t.balls).sum := by
  cases hb : (tubes.getD fm defTube).balls.getLast? with
  | none => rw [moveBall_eq_of_empty tubes fm toIdx hb]
  | some b =>
    rw [moveBall_eq tubes fm toIdx b hne hb]
    dsimp only
    have h1 := sum_map_set (fun t => g t.balls)
      tubes fm
      { tubes.getD fm defTube with balls := (tubes.getD fm defTube).balls.dropLast } hfm
    have h2 := sum_map_set (fun t => g t.balls)
      (tubes.set fm { tubes.getD fm defTube with
        balls := (tubes.getD fm defTube).balls.dropLast })
      toIdx
      { tubes.getD toIdx defTube with
        balls := (tubes.getD toIdx defTube).balls ++ [b] }
      (by rw [List.length_set]; exact hto)
    rw [getD_set_ne _ _ _ _ hne] at h2
    dsimp only at h1 h2
    have h3 : g (tubes.getD fm defTube).balls
        = g (tubes.getD fm defTube).balls.dropLast + g [b] := by
      conv_lhs => rw [balls_eq_dropLast_append _ b hb]
      rw [hg]
    rw [hg] at h2
    omega

theorem moveBall_colorCount (tubes : List TubeData) (fm toIdx c : Nat) (hne : fm ≠ toIdx)
    (hfm : fm < tubes.length) (hto : toIdx < tubes.length) :
    colorCount (moveBall tubes fm toIdx) c = colorCount tubes c := by
  unfold colorCount tubeColorCount
  exact moveBall_counts (fun bs => bs.countP fun b => b.colorId == c)
    (fun xs ys => List.countP_append _ xs ys) tubes fm toIdx hne hfm hto

theorem moveBall_totalBalls (tubes : List TubeData) (fm toIdx : Nat) (hne : fm ≠ toIdx)
    (hfm : fm < tubes.length) (hto : toIdx < tubes.length) :
    totalBalls (moveBall tubes fm toIdx) = totalBalls tubes := by
  unfold totalBalls
  exact moveBall_counts (fun bs => bs.length)
    (fun xs ys => List.length_append xs ys) tubes fm toIdx hne hfm hto

theorem moveBall_TubesOk (cfg : LevelConfig) (tubes : List TubeData) (fm toIdx : Nat)
    (hOk : TubesOk cfg tubes) (hne : fm ≠ toIdx)
    (hfm : fm < tubes.length) (hto : toIdx < tubes.length)
    (hspace : (tubes.getD toIdx defTube).balls.length
      < (tubes.getD toIdx defTube).capacity) :
    TubesOk cfg (moveBall tubes fm toIdx) := by
  obtain ⟨hlen, hidx, htot, hcol⟩ := hOk
  refine ⟨?_, ?_, ?_, ?_⟩
  · rw [moveBall_length]; exact hlen
  · intro i hi
    rw [moveBall_length] at hi
    cases hb : (tubes.getD fm defTube).balls.getLast? with
    | none => rw [moveBall_eq_of_empty tubes fm toIdx hb]; exact hidx i hi
    | some b =>
      rw [moveBall_eq tubes fm toIdx b hne hb]
      dsimp only
      by_cases h1 : i = toIdx
      · subst h1
        rw [getD_set_self _ _ _ (by rw [List.length_set]; exact hto)]
        obtain ⟨ha, hb', hc⟩ := hidx i hto
        refine ⟨ha, hb', ?_⟩
        rw [List.length_append]
        rw [hb'] at hspace
        simp only [List.length_cons, List.length_nil]
        omega
      · rw [getD_set_ne _ _ _ _ fun heq => h1 heq.symm]
        by_cases h2 : i = fm
        · subst h2
          rw [getD_set_self _ _ _ hfm]
          obtain ⟨ha, hb', hc⟩ := hidx i hfm
          refine ⟨ha, hb', ?_⟩
          rw [List.length_dropLast]
          omega
        · rw [getD_set_ne _ _ _ _ fun heq => h2 heq.symm]
          exact hidx i hi
  · rw [moveBall_totalBalls tubes fm toIdx hne hfm hto]; exact htot
  · intro c; rw [moveBall_colorCount tubes fm toIdx c hne hfm hto]; exact hcol c

theorem getD_mem (l : List ShuffleMove) (i : Nat) (d : ShuffleMove) (h : i < l.length) :
    l.getD i d ∈ l := by
  rw [List.getD_eq_getElem l d h]
  exact List.getElem_mem h

theorem scrambleLoop_TubesOk (cfg : LevelConfig) (rand : Nat → Nat) :
    ∀ (fuel i : Nat) (prev : Int) (tubes : List TubeData), TubesOk cfg tubes →
      TubesOk cfg (scrambleLoop rand i fuel prev tubes) := by
  intro fuel
  induction fuel with
  | zero => intro i prev tubes h; exact h
  | succ fuel ih =>
    intro i prev tubes h
    rw [scrambleLoop]
    dsimp only
    by_cases hemp : (codeMovePool tubes prev).isEmpty = true
    · rw [if_pos hemp]; exact h
    · rw [if_neg hemp]
      have hpos : 0 < (codeMovePool tubes prev).length := by
        cases hp : codeMovePool tubes prev with
        | nil => rw [hp] at hemp; simp at hemp
        | cons a l => simp [hp]
      have hmemPool : (codeMovePool tubes prev).getD
          (rand i % (codeMovePool tubes prev).length) { fm := 0, toIdx := 0 }
          ∈ codeMovePool tubes prev :=
        getD_mem _ _ _ (Nat.mod_lt _ hpos)
      have hmemAvail := ((mem_codeMovePool tubes prev _).mp hmemPool).1
      have hlegal := (mem_availableMoves tubes _).mp hmemAvail
      obtain ⟨hfm, hto, hne, hsrc, hcap⟩ := hlegal
      exact ih (i + 1) _ _ (moveBall_TubesOk cfg tubes _ _ h hne hfm hto hcap)

theorem getD_map_range (f : Nat → TubeData) (n i : Nat) (h : i < n) :
    ((List.range n).map f).getD i defTube = f i := by
  rw [List.getD_eq_getElem _ _ (by simpa using h)]
  simp

theorem sum_if_lt (a : Nat) :
    ∀ n, ((List.range n).map fun i => if i < a then TUBE_CAPACITY else 0).sum
      = TUBE_CAPACITY * min n a := by
  intro n
  induction n with
  | zero => simp
  | succ n ih =>
    rw [List.range_succ, List.map_append, List.sum_append, ih]
    simp only [List.map_cons, List.map_nil, List.sum_cons, List.sum_nil, TUBE_CAPACITY]
    split_ifs <;> omega

theorem sum_if_color (a c : Nat) :
    ∀ n, ((List.range n).map fun i =>
        if i < a then (if i = c then TUBE_CAPACITY else 0) else 0).sum
      = if c < min n a then TUBE_CAPACITY else 0 := by
  intro n
  induction n with
  | zero => simp
  | succ n ih =>
    rw [List.range_succ, List.map_append, List.sum_append, ih]
    simp only [List.map_cons, List.map_nil, List.sum_cons, List.sum_nil, TUBE_CAPACITY]
    split_ifs <;> omega

theorem countP_const_color (f : Nat → Nat) (i c n : Nat) :
    (((List.range n).map fun j => ({ id := f j, colorId := i } : Ball)).countP
      fun b => b.colorId == c) = if i = c then n else 0 := by
  by_cases h : i = c
  · rw [if_pos h]
    rw [List.countP_eq_length.mpr]
    · simp
    · intro x hx
      rw [List.mem_map] at hx
      obtain ⟨j, hj, hx⟩ := hx
      rw [← hx]
      simp [h]
  · rw [if_neg h]
    rw [List.countP_eq_zero.mpr]
    intro x hx
    rw [List.mem_map] at hx
    obtain ⟨j, hj, hx⟩ := hx
    rw [← hx]
    simp [h]

theorem initBoard_TubesOk (cfg : LevelConfig) : TubesOk cfg (initBoard cfg) := by
  refine ⟨by simp [initBoard], ?_, ?_, ?_⟩
  · intro i hi
    rw [initBoard] at hi ⊢
    rw [List.length_map, List.length_range] at hi
    rw [getD_map_range _ _ _ hi]
    refine ⟨rfl, rfl, ?_⟩
    dsimp only
    split_ifs with h
    · simp
    · simp
  · unfold totalBalls initBoard
    rw [List.map_map]
    have hcong : ∀ x ∈ List.range (cfg.numColors + cfg.numEmpty),
        ((fun t => t.balls.length) ∘ fun i =>
          ({ id := i, capacity := TUBE_CAPACITY,
             balls := if i < cfg.numColors then
                 (List.range TUBE_CAPACITY).map fun j =>
                   { id := i * TUBE_CAPACITY + j, colorId := i }
               else [] } : TubeData)) x
        = (fun i => if i < cfg.numColors then TUBE_CAPACITY else 0) x := by
      intro x hx
      dsimp only [Function.comp]
      split_ifs with h
      · simp
      · simp
    rw [List.map_congr_left hcong, sum_if_lt]
    rw [Nat.min_eq_right (Nat.le_add_right _ _)]
  · intro c
    unfold colorCount tubeColorCount initBoard
    rw [List.map_map]
    have hcong : ∀ x ∈ List.range (cfg.numColors + cfg.numEmpty),
        ((fun t => t.balls.countP fun b => b.colorId == c) ∘ fun i =>
          ({ id := i, capacity := TUBE_CAPACITY,
             balls := if i < cfg.numColors then
                 (List.range TUBE_CAPACITY).map fun j =>
                   { id := i * TUBE_CAPACITY + j, colorId := i }
               else [] } : TubeData)) x
        = (fun i => if i < cfg.numColors then (if i = c then TUBE_CAPACITY else 0) else 0) x := by
      intro x hx
      dsimp only [Function.comp]
      by_cases h : x < cfg.numColors
      · rw [if_pos h, if_pos h, countP_const_color]
      · rw [if_neg h, if_neg h]
        simp
    rw [List.map_congr_left hcong, sum_if_color]
    rw [Nat.min_eq_right (Nat.le_add_right _ _)]

theorem findDestIdx_some (e : Nat) :
    ∀ (l : List TubeData) (j : Nat), findDestIdx e l = some j →
      j < l.length ∧ (l.getD j defTube).id ≠ e
        ∧ (l.getD j defTube).balls.length < (l.getD j defTube).capacity := by
  intro l
  induction l with
  | nil => intro j h; cases h
  | cons t rest ih =>
    intro j h
    unfold findDestIdx at h
    split_ifs at h with hp
    · rw [Option.some_inj] at h
      subst h
      simp only [List.getD_cons_zero, List.length_cons]
      exact ⟨Nat.succ_pos _, hp.1, hp.2⟩
    · cases hr : findDestIdx e rest with
      | none => rw [hr] at h; cases h
      | some j' =>
        rw [hr] at h
        simp only [Option.map] at h
        rw [Option.some_inj] at h
        subst h
        obtain ⟨h1, h2, h3⟩ := ih j' hr
        refine ⟨by simpa using Nat.succ_lt_succ h1, ?_, ?_⟩
        · rw [List.getD_cons_succ]; exact h2
        · rw [List.getD_cons_succ]; exact h3

theorem findDestIdx_isSome (e : Nat) :
    ∀ (l : List TubeData),
      (∃ j, j < l.length ∧ (l.getD j defTube).id ≠ e
        ∧ (l.getD j defTube).balls.length < (l.getD j defTube).capacity) →
      (findDestIdx e l).isSome = true := by
  intro l
  induction l with
  | nil => rintro ⟨j, hj, _⟩; simp at hj
  | cons t rest ih =>
    rintro ⟨j, hj, h1, h2⟩
    unfold findDestIdx
    split_ifs with hp
    · simp
    · cases j with
      | zero =>
        exfalso
        apply hp
        rw [List.getD_cons_zero] at h1 h2
        exact ⟨h1, h2⟩
      | succ j' =>
        rw [List.getD_cons_succ] at h1 h2
        have := ih ⟨j', by simpa using hj, h1, h2⟩
        cases hr : findDestIdx e rest with
        | none => rw [hr] at this; simp at this
        | some j'' => simp

theorem sum_map_const_cap (f : TubeData → Nat) :
    ∀ (l : List TubeData), (∀ j, j < l.length → f (l.getD j defTube) = TUBE_CAPACITY) →
      (l.map f).sum = TUBE_CAPACITY * l.length := by
  intro l
  induction l with
  | nil => simp
  | cons t rest ih =>
    intro h
    have h0 := h 0 (Nat.succ_pos _)
    rw [List.getD_cons_zero] at h0
    have hrest := ih fun j hj => by
      have := h (j + 1) (by simpa using Nat.succ_lt_succ hj)
      rw [List.getD_cons_succ] at this
      exact this
    simp only [List.map_cons, List.sum_cons, List.length_cons, h0, hrest, TUBE_CAPACITY]
    omega

theorem exists_spare (cfg : LevelConfig) (tubes : List TubeData)
    (hOk : TubesOk cfg tubes) (hne : 1 ≤ cfg.numEmpty) :
    ∃ j, j < tubes.length ∧ (tubes.getD j defTube).balls.length
      < (tubes.getD j defTube).capacity := by
  by_contra h
  push_neg at h
  obtain ⟨hlen, hidx, htot, hcol⟩ := hOk
  have hfull : ∀ j, j < tubes.length →
      (fun t => t.balls.length) (tubes.getD j defTube) = TUBE_CAPACITY := by
    intro j hj
    obtain ⟨_, hcap, hle⟩ := hidx j hj
    have := h j hj
    rw [hcap] at this
    dsimp only
    omega
  have := sum_map_const_cap (fun t => t.balls.length) tubes hfull
  unfold totalBalls at htot
  rw [htot] at this
  rw [hlen] at this
  simp only [TUBE_CAPACITY] at this
  omega

theorem solved_countP (t : TubeData) (hs : isSolvedTube t = true) (b : Ball)
    (hb : b ∈ t.balls) : tubeColorCount t b.colorId = TUBE_CAPACITY := by
  unfold isSolvedTube at hs
  rw [Bool.and_eq_true] at hs
  obtain ⟨hl, hall⟩ := hs
  rw [beq_iff_eq] at hl
  have hsame := (isAllSameColor_iff t.balls).mp hall
  unfold tubeColorCount
  rw [List.countP_eq_length.mpr]
  · exact hl
  · intro x hx
    rw [beq_iff_eq]
    exact hsame x hx b hb

theorem single_le_sum_map (f : TubeData → Nat) :
    ∀ (l : List TubeData) (k : Nat), k < l.length →
      f (l.getD k defTube) ≤ (l.map f).sum := by
  intro l
  induction l with
  | nil => intro k hk; simp at hk
  | cons t rest ih =>
    intro k hk
    cases k with
    | zero => simp [List.getD_cons_zero]
    | succ k' =>
      rw [List.getD_cons_succ]
      have := ih k' (by simpa using hk)
      simp only [List.map_cons, List.sum_cons]
      omega

theorem pair_le_sum_map (f : TubeData → Nat) :
    ∀ (l : List TubeData) (k j : Nat), k < l.length → j < l.length → k ≠ j →
      f (l.getD k defTube) + f (l.getD j defTube) ≤ (l.map f).sum := by
  intro l
  induction l with
  | nil => intro k j hk; simp at hk
  | cons t rest ih =>
    intro k j hk hj hne
    cases k with
    | zero =>
      cases j with
      | zero => exact absurd rfl hne
      | succ j' =>
        rw [List.getD_cons_zero, List.getD_cons_succ]
        have := single_le_sum_map f rest j' (by simpa using hj)
        simp only [List.map_cons, List.sum_cons]
        omega
    | succ k' =>
      cases j with
      | zero =>
        rw [List.getD_cons_zero, List.getD_cons_succ]
        have := single_le_sum_map f rest k' (by simpa using hk)
        simp only [List.map_cons, List.sum_cons]
        omega
      | succ j' =>
        rw [List.getD_cons_succ, List.getD_cons_succ]
        have := ih k' j' (by simpa using hk) (by simpa using hj)
          (fun hh => hne (by rw [hh]))
        simp only [List.map_cons, List.sum_cons]
        omega

theorem solved_unique_color (cfg : LevelConfig) (tubes : List TubeData)
    (hOk : TubesOk cfg tubes) (k : Nat) (hk : k < tubes.length) (c : Nat)
    (hcount : tubeColorCount (tubes.getD k defTube) c = TUBE_CAPACITY) :
    ∀ j, j < tubes.length → j ≠ k → tubeColorCount (tubes.getD j defTube) c = 0 := by
  intro j hj hne
  obtain ⟨hlen, hidx, htot, hcol⟩ := hOk
  have hsum := hcol c
  unfold colorCount at hsum
  have hpair := pair_le_sum_map (tubeColorCount · c) tubes k j hk hj (fun h => hne h.symm)
  dsimp only at hpair
  rw [hsum] at hpair
  rw [hcount] at hpair
  by_cases hc : c < cfg.numColors
  · rw [if_pos hc] at hpair
    omega
  · rw [if_neg hc] at hpair
    simp only [TUBE_CAPACITY] at hpair
    omega

theorem deSolveStep_inv (cfg : LevelConfig) (hnemp : 1 ≤ cfg.numEmpty) (k : Nat)
    (tubes : List TubeData) (flag : Bool)
    (hOk : TubesOk cfg tubes) (hk : k < tubes.length)
    (hpre : ∀ j, j < k → isSolvedTube (tubes.getD j defTube) = false) :
    TubesOk cfg (deSolveStep (tubes, flag) k).1
    ∧ (deSolveStep (tubes, flag) k).1.length = tubes.length
    ∧ (∀ j, j < k + 1 →
        isSolvedTube ((deSolveStep (tubes, flag) k).1.getD j defTube) = false) := by
  unfold deSolveStep
  dsimp only
  by_cases hs : isSolvedTube (tubes.getD k defTube) = true
  · rw [if_pos hs]
    obtain ⟨j0, hj0, hsp⟩ := exists_spare cfg tubes hOk hnemp
    have hid0 : (tubes.getD j0 defTube).id = j0 := (hOk.2.1 j0 hj0).1
    have hkfull : (tubes.getD k defTube).balls.length = TUBE_CAPACITY := by
      unfold isSolvedTube at hs
      rw [Bool.and_eq_true, beq_iff_eq] at hs
      exact hs.1
    have hkcap : (tubes.getD k defTube).capacity = TUBE_CAPACITY := (hOk.2.1 k hk).2.1
    have hj0k : j0 ≠ k := by
      intro hh
      subst hh
      rw [hkfull, hkcap] at hsp
      omega
    have hfind : (findDestIdx k tubes).isSome = true :=
      findDestIdx_isSome k tubes ⟨j0, hj0, by rw [hid0]; exact hj0k, hsp⟩
    cases hfd : findDestIdx k tubes with
    | none => rw [hfd] at hfind; simp at hfind
    | some j =>
      dsimp only
      obtain ⟨hjlen, hjid, hjsp⟩ := findDestIdx_some k tubes j hfd
      have hjk : j ≠ k := by
        intro hh
        exact hjid (by rw [(hOk.2.1 j hjlen).1, hh])
      have hbex : ∃ b, (tubes.getD k defTube).balls.getLast? = some b := by
        cases hbl : (tubes.getD k defTube).balls.getLast? with
        | none =>
          exfalso
          rw [List.getLast?_eq_none_iff] at hbl
          rw [hbl] at hkfull
          simp [TUBE_CAPACITY] at hkfull
        | some b => exact ⟨b, rfl⟩
      obtain ⟨b, hb⟩ := hbex
      have hOk' : TubesOk cfg (moveBall tubes k j) :=
        moveBall_TubesOk cfg tubes k j hOk (fun hh => hjk hh.symm) hk hjlen hjsp
      refine ⟨hOk', by rw [moveBall_length], ?_⟩
      have hbmem : b ∈ (tubes.getD k defTube).balls := List.mem_of_mem_getLast? hb
      have hcnt4 : tubeColorCount (tubes.getD k defTube) b.colorId = TUBE_CAPACITY :=
        solved_countP _ hs b hbmem
      have hzero := solved_unique_color cfg tubes hOk k hk b.colorId hcnt4
      intro jj hjj
      rw [moveBall_eq tubes k j b (fun hh => hjk hh.symm) hb]
      dsimp only
      by_cases h1 : jj = j
      · subst h1
        rw [getD_set_self _ _ _ (by rw [List.length_set]; exact hjlen)]
        have hz : tubeColorCount (tubes.getD jj defTube) b.colorId = 0 :=
          hzero jj hjlen hjk
        by_contra hsol
        rw [Bool.not_eq_false] at hsol
        have hfour := solved_countP _ hsol b (by simp)
        unfold tubeColorCount at hfour hz
        dsimp only at hfour
        rw [List.countP_append] at hfour
        rw [hz] at hfour
        simp [TUBE_CAPACITY] at hfour
      · rw [getD_set_ne _ _ _ _ (fun hh => h1 hh.symm)]
        by_cases h2 : jj = k
        · subst h2
          rw [getD_set_self _ _ _ hk]
          unfold isSolvedTube
          dsimp only
          rw [List.length_dropLast, hkfull]
          simp [TUBE_CAPACITY]
        · rw [getD_set_ne _ _ _ _ (fun hh => h2 hh.symm)]
          exact hpre jj (by omega)
  · rw [if_neg hs]
    refine ⟨hOk, rfl, ?_⟩
    intro j hj
    by_cases h1 : j = k
    · subst h1
      rw [Bool.not_eq_true] at hs
      exact hs
    · exact hpre j (by omega)

theorem deSolveStep_TubesOk (cfg : LevelConfig) (k : Nat) (tubes : List TubeData)
    (flag : Bool) (hOk : TubesOk cfg tubes) :
    TubesOk cfg (deSolveStep (tubes, flag) k).1
    ∧ (deSolveStep (tubes, flag) k).1.length = tubes.length := by
  unfold deSolveStep
  dsimp only
  by_cases hs : isSolvedTube (tubes.getD k defTube) = true
  · rw [if_pos hs]
    cases hfd : findDestIdx k tubes with
    | none => exact ⟨hOk, rfl⟩
    | some j =>
      dsimp only
      obtain ⟨hjlen, hjid, hjsp⟩ := findDestIdx_some k tubes j hfd
      by_cases hk : k < tubes.length
      · have hjk : j ≠ k := fun hh => hjid (by rw [(hOk.2.1 j hjlen).1, hh])
        exact ⟨moveBall_TubesOk cfg tubes k j hOk (fun hh => hjk hh.symm) hk hjlen hjsp,
          by rw [moveBall_length]⟩
      · exfalso
        rw [List.getD_eq_default _ _ (by omega)] at hs
        simp [isSolvedTube, defTube, TUBE_CAPACITY, isAllSameColor] at hs
  · rw [if_neg hs]
    exact ⟨hOk, rfl⟩

theorem deSolvePass_fold_TubesOk (cfg : LevelConfig) :
    ∀ (n : Nat) (tubes : List TubeData) (flag : Bool), TubesOk cfg tubes →
      TubesOk cfg ((List.range n).foldl deSolveStep (tubes, flag)).1
      ∧ ((List.range n).foldl deSolveStep (tubes, flag)).1.length = tubes.length := by
  intro n
  induction n with
  | zero => intro tubes flag hOk; exact ⟨hOk, rfl⟩
  | succ n ih =>
    intro tubes flag hOk
    rw [List.range_succ, List.foldl_append]
    simp only [List.foldl_cons, List.foldl_nil]
    obtain ⟨hOk', hlen'⟩ := ih tubes flag hOk
    have := deSolveStep_TubesOk cfg n
      ((List.range n).foldl deSolveStep (tubes, flag)).1
      ((List.range n).foldl deSolveStep (tubes, flag)).2 hOk'
    rw [Prod.mk.eta] at this
    exact ⟨this.1, by rw [this.2, hlen']⟩

theorem deSolveLoop_TubesOk (cfg : LevelConfig) :
    ∀ (fuel : Nat) (tubes : List TubeData), TubesOk cfg tubes →
      TubesOk cfg (deSolveLoop fuel tubes) := by
  intro fuel
  induction fuel with
  | zero => intro tubes hOk; exact hOk
  | succ fuel ih =>
    intro tubes hOk
    rw [deSolveLoop]
    have hpass : TubesOk cfg (deSolvePass tubes).1 := by
      unfold deSolvePass
      exact (deSolvePass_fold_TubesOk cfg tubes.length tubes false hOk).1
    by_cases hr : (deSolvePass tubes).2 = true
    · rw [if_pos hr]
      exact ih _ hpass
    · rw [if_neg hr]
      exact hpass

theorem deSolvePass_fold_inv (cfg : LevelConfig) (hnemp : 1 ≤ cfg.numEmpty) :
    ∀ (n : Nat) (tubes : List TubeData) (flag : Bool), TubesOk cfg tubes →
      n ≤ tubes.length →
      TubesOk cfg ((List.range n).foldl deSolveStep (tubes, flag)).1
      ∧ ((List.range n).foldl deSolveStep (tubes, flag)).1.length = tubes.length
      ∧ (∀ j, j < n →
          isSolvedTube (((List.range n).foldl deSolveStep (tubes, flag)).1.getD j defTube)
            = false) := by
  intro n
  induction n with
  | zero =>
    intro tubes flag hOk hn
    exact ⟨hOk, rfl, by intro j hj; omega⟩
  | succ n ih =>
    intro tubes flag hOk hn
    rw [List.range_succ, List.foldl_append]
    simp only [List.foldl_cons, List.foldl_nil]
    obtain ⟨hOk', hlen', hns⟩ := ih tubes flag hOk (by omega)
    have hk : n < ((List.range n).foldl deSolveStep (tubes, flag)).1.length := by
      rw [hlen']
      omega
    have hstep := deSolveStep_inv cfg hnemp n
      ((List.range n).foldl deSolveStep (tubes, flag)).1
      ((List.range n).foldl deSolveStep (tubes, flag)).2 hOk' hk hns
    rw [Prod.mk.eta] at hstep
    obtain ⟨ha, hb, hc⟩ := hstep
    exact ⟨ha, by rw [hb, hlen'], hc⟩

theorem deSolvePass_fold_noop :
    ∀ (n : Nat) (tubes : List TubeData) (flag : Bool),
      (∀ j, j < n → isSolvedTube (tubes.getD j defTube) = false) →
      (List.range n).foldl deSolveStep (tubes, flag) = (tubes, flag) := by
  intro n
  induction n with
  | zero => intro tubes flag h; rfl
  | succ n ih =>
    intro tubes flag h
    rw [List.range_succ, List.foldl_append]
    rw [ih tubes flag fun j hj => h j (by omega)]
    simp only [List.foldl_cons, List.foldl_nil]
    unfold deSolveStep
    dsimp only
    have hn' := h n (Nat.lt_succ_self n)
    rw [List.getD_eq_getElem?_getD] at hn'
    rw [if_neg]
    simp [hn']

theorem deSolveLoop_fixed (tubes : List TubeData)
    (h : ∀ j, j < tubes.length → isSolvedTube (tubes.getD j defTube) = false) :
    ∀ fuel, deSolveLoop fuel tubes = tubes := by
  intro fuel
  cases fuel with
  | zero => rfl
  | succ f =>
    rw [deSolveLoop]
    have hpass : deSolvePass tubes = (tubes, false) := by
      unfold deSolvePass
      exact deSolvePass_fold_noop tubes.length tubes false h
    rw [hpass]
    simp

theorem deSolveLoop_inv (cfg : LevelConfig) (hnemp : 1 ≤ cfg.numEmpty)
    (fuel : Nat) (hf : 1 ≤ fuel) (tubes : List TubeData) (hOk : TubesOk cfg tubes) :
    TubesOk cfg (deSolveLoop fuel tubes)
    ∧ (∀ j, j < (deSolveLoop fuel tubes).length →
        isSolvedTube ((deSolveLoop fuel tubes).getD j defTube) = false) := by
  cases fuel with
  | zero => omega
  | succ f =>
    rw [deSolveLoop]
    have hpass := deSolvePass_fold_inv cfg hnemp tubes.length tubes false hOk (le_refl _)
    have hPassEq : deSolvePass tubes = (List.range tubes.length).foldl deSolveStep (tubes, false) := rfl
    obtain ⟨hOk', hlen', hns⟩ := hpass
    rw [← hPassEq] at hOk' hlen' hns
    by_cases hr : (deSolvePass tubes).2 = true
    · rw [if_pos hr]
      have hfix := deSolveLoop_fixed (deSolvePass tubes).1
        (fun j hj => hns j (by rw [← hlen']; exact hj)) f
      rw [hfix]
      exact ⟨hOk', fun j hj => hns j (by rw [← hlen']; exact hj)⟩
    · rw [if_neg hr]
      exact ⟨hOk', fun j hj => hns j (by rw [← hlen']; exact hj)⟩

theorem mem_iff_getD (tubes : List TubeData) (t : TubeData) :
    t ∈ tubes ↔ ∃ i, i < tubes.length ∧ tubes.getD i defTube = t := by
  rw [List.mem_iff_getElem]
  constructor
  · rintro ⟨i, hi, hg⟩
    exact ⟨i, hi, by rw [List.getD_eq_getElem _ _ hi]; exact hg⟩
  · rintro ⟨i, hi, hg⟩
    exact ⟨i, hi, by rw [← List.getD_eq_getElem _ defTube hi]; exact hg⟩

theorem generateLevel_TubesOk (cfg : LevelConfig) (rand : Nat → Nat) :
    TubesOk cfg (generateLevel cfg rand) := by
  unfold generateLevel
  exact deSolveLoop_TubesOk cfg 100 _
    (scrambleLoop_TubesOk cfg rand cfg.shuffles 0 (-1) (initBoard cfg)
      (initBoard_TubesOk cfg))

theorem generateLevel_noSolved (cfg : LevelConfig) (rand : Nat → Nat)
    (hnemp : 1 ≤ cfg.numEmpty) :
    ∀ j, j < (generateLevel cfg rand).length →
      isSolvedTube ((generateLevel cfg rand).getD j defTube) = false := by
  unfold generateLevel
  exact (deSolveLoop_inv cfg hnemp 100 (by omega) _
    (scrambleLoop_TubesOk cfg rand cfg.shuffles 0 (-1) (initBoard cfg)
      (initBoard_TubesOk cfg))).2

theorem exists_nonempty_tube (cfg : LevelConfig) (tubes : List TubeData)
    (hOk : TubesOk cfg tubes) (hc : 1 ≤ cfg.numColors) :
    ∃ i, i < tubes.length ∧ (tubes.getD i defTube).balls ≠ [] := by
  have h0 := hOk.2.2.2 0
  rw [if_pos (by omega)] at h0
  by_contra h
  push_neg at h
  have hz : colorCount tubes 0 = 0 := by
    unfold colorCount
    apply List.sum_eq_zero
    intro x hx
    rw [List.mem_map] at hx
    obtain ⟨t, ht, hx⟩ := hx
    obtain ⟨i, hi, hgd⟩ := (mem_iff_getD tubes t).mp ht
    have : t.balls = [] := by rw [← hgd]; exact h i hi
    rw [← hx]
    unfold tubeColorCount
    rw [this]
    rfl
  rw [hz] at h0
  simp [TUBE_CAPACITY] at h0

theorem checkWin_false_of (tubes : List TubeData) (i : Nat) (hi : i < tubes.length)
    (hne : (tubes.getD i defTube).balls ≠ [])
    (hns : isSolvedTube (tubes.getD i defTube) = false) :
    checkWinCondition tubes = false := by
  unfold checkWinCondition
  rw [← Bool.not_eq_true, List.all_eq_true]
  intro hall
  have hmem : tubes.getD i defTube ∈ tubes := (mem_iff_getD tubes _).mpr ⟨i, hi, rfl⟩
  have := hall _ hmem
  rw [if_neg (by rw [List.isEmpty_iff]; exact hne)] at this
  unfold isSolvedTube at hns
  by_cases hlen : ((tubes.getD i defTube).balls.length == TUBE_CAPACITY) = true
  · rw [if_pos hlen] at this
    rw [hlen] at hns
    rw [this] at hns
    cases hns
  · rw [if_neg hlen] at this
    cases this

/-- Counterexample to claim C4 as stated: with `numEmpty = 0` (which the
spec's data model permits) the board has no spare capacity, the repair
scan cannot break up the pre-solved tubes, and `generateLevel` returns a
board that is already won: with one color, zero empty tubes and zero
shuffles the single tube stays full and monochrome. -/
theorem claim_C4_counterexample :
    checkWinCondition (generateLevel ⟨1, 0, 0, 0, 0⟩ (fun _ => 0)) = true
    ∧ (∃ t ∈ generateLevel ⟨1, 0, 0, 0, 0⟩ (fun _ => 0),
        t.balls.length = TUBE_CAPACITY ∧ isAllSameColor t.balls = true) := by
  decide

/-- Claim C4 (amended): for every configuration and every random-oracle
sequence, `generateLevel` returns `numColors + numEmpty` tubes of capacity
`TUBE_CAPACITY` (4), with exactly 4 balls of each color below `numColors`
and no tube over capacity; and — provided at least one color and at least
one empty tube, the latter being what the counterexample forces — no tube
is simultaneously full and monochrome and `checkWinCondition` is false. -/
theorem claim_C4_generateLevel_spec (cfg : LevelConfig) (rand : Nat → Nat) :
    (generateLevel cfg rand).length = cfg.numColors + cfg.numEmpty
    ∧ (∀ t ∈ generateLevel cfg rand, t.capacity = TUBE_CAPACITY)
    ∧ (∀ t ∈ generateLevel cfg rand, t.balls.length ≤ t.capacity)
    ∧ (∀ c, c < cfg.numColors → colorCount (generateLevel cfg rand) c = TUBE_CAPACITY)
    ∧ (1 ≤ cfg.numEmpty →
        ∀ t ∈ generateLevel cfg rand,
          ¬(t.balls.length = TUBE_CAPACITY ∧ isAllSameColor t.balls = true))
    ∧ (1 ≤ cfg.numColors → 1 ≤ cfg.numEmpty →
        checkWinCondition (generateLevel cfg rand) = false) := by
  have hOk := generateLevel_TubesOk cfg rand
  refine ⟨hOk.1, ?_, ?_, ?_, ?_, ?_⟩
  · intro t ht
    obtain ⟨i, hi, hgd⟩ := (mem_iff_getD _ t).mp ht
    rw [← hgd]
    exact (hOk.2.1 i hi).2.1
  · intro t ht
    obtain ⟨i, hi, hgd⟩ := (mem_iff_getD _ t).mp ht
    rw [← hgd]
    have h := hOk.2.1 i hi
    rw [h.2.1]
    exact h.2.2
  · intro c hc
    rw [hOk.2.2.2 c, if_pos hc]
  · intro hnemp t ht
    obtain ⟨i, hi, hgd⟩ := (mem_iff_getD _ t).mp ht
    have hns := generateLevel_noSolved cfg rand hnemp i hi
    rw [hgd] at hns
    rintro ⟨h1, h2⟩
    unfold isSolvedTube at hns
    rw [h1, h2] at hns
    simp at hns
  · intro hc hnemp
    obtain ⟨i, hi, hne⟩ := exists_nonempty_tube cfg _ hOk hc
    exact checkWin_false_of _ i hi hne (generateLevel_noSolved cfg rand hnemp i hi)

/-- Witness for C4 at the concrete one-color one-empty-tube configuration. -/
theorem claim_C4_generateLevel_spec_witness :
    (1 ≤ (⟨1, 1, 0, 0, 0⟩ : LevelConfig).numColors
      ∧ 1 ≤ (⟨1, 1, 0, 0, 0⟩ : LevelConfig).numEmpty)
    ∧ ((generateLevel ⟨1, 1, 0, 0, 0⟩ (fun _ => 0)).length
          = (⟨1, 1, 0, 0, 0⟩ : LevelConfig).numColors
            + (⟨1, 1, 0, 0, 0⟩ : LevelConfig).numEmpty
      ∧ (∀ t ∈ generateLevel ⟨1, 1, 0, 0, 0⟩ (fun _ => 0), t.capacity = TUBE_CAPACITY)
      ∧ (∀ t ∈ generateLevel ⟨1, 1, 0, 0, 0⟩ (fun _ => 0),
          t.balls.length ≤ t.capacity)
      ∧ (∀ c, c < (⟨1, 1, 0, 0, 0⟩ : LevelConfig).numColors →
          colorCount (generateLevel ⟨1, 1, 0, 0, 0⟩ (fun _ => 0)) c = TUBE_CAPACITY)
      ∧ (1 ≤ (⟨1, 1, 0, 0, 0⟩ : LevelConfig).numEmpty →
          ∀ t ∈ generateLevel ⟨1, 1, 0, 0, 0⟩ (fun _ => 0),
            ¬(t.balls.length = TUBE_CAPACITY ∧ isAllSameColor t.balls = true))
      ∧ (1 ≤ (⟨1, 1, 0, 0, 0⟩ : LevelConfig).numColors →
          1 ≤ (⟨1, 1, 0, 0, 0⟩ : LevelConfig).numEmpty →
          checkWinCondition (generateLevel ⟨1, 1, 0, 0, 0⟩ (fun _ => 0)) = false)) :=
  ⟨by decide, claim_C4_generateLevel_spec ⟨1, 1, 0, 0, 0⟩ (fun _ => 0)⟩
